import Mathlib

/-!
Verification of the `speedtesting` repository (Deno speed-test server and
client) against its natural-language specification.

The repository contains two generations of the server and of the client:
* the Hono-based server (`src/unnamed/part_000`) with 64 KiB download chunks,
* the legacy server (`src/server.ts`) with 1 KiB download chunks,
* the main client (`src/main.ts`, zod-validated options), and
* the legacy client (`src/client.ts`, manual defaults).

JavaScript numbers are modelled exactly (as `Nat`/`Int`/`ℚ`); the 32-bit
wrap-around of JavaScript's bitwise shift operators, which is exactly
specified by ECMAScript, is modelled explicitly via `toInt32` wherever the
source uses `<<` or `>>` on values that can exceed the 32-bit range.
Streams are modelled by their pull-driven state machines, run with explicit
fuel (the number of pulls the consumer performs); promises by their settling
(time and outcome).
-/

/-- ECMAScript ToInt32: reduce mod 2^32 and reinterpret as a signed 32-bit
integer.  Used to model the JavaScript `<<` and `>>` operators. -/
def toInt32 (n : Nat) : Int :=
  if n % 2 ^ 32 < 2 ^ 31 then ((n % 2 ^ 32 : Nat) : Int)
  else ((n % 2 ^ 32 : Nat) : Int) - 2 ^ 32

/-- An HTTP response reduced to the data the claims mention: a status code
and a plain-text body. -/
structure HttpResponse where
  status : Nat
  body : String
deriving DecidableEq, Repr

namespace HonoServer

/-- `const DATA_CHUNK_SIZE = 1 << 16` (part_000 line 9): 64 KiB. -/
def DATA_CHUNK_SIZE : Nat := 1 <<< 16

/-- `const MAX_UPLOAD_LIMIT = 1 << 20` (part_000 line 16): 1 MiB. -/
def MAX_UPLOAD_LIMIT : Nat := 1 <<< 20

/-- The upload sink (part_000 lines 71-80): fold the incoming chunks
(represented by their byte lengths, since only `chunk.length` is read),
adding each length to `readBytes`; after adding, if the running count
exceeds `MAX_UPLOAD_LIMIT`, throw (modelled as `Except.error`). -/
def consumeUpload : List Nat → Nat → Except Unit Nat
  | [], readBytes => Except.ok readBytes
  | chunk :: rest, readBytes =>
    let readBytes' := readBytes + chunk
    if readBytes' > MAX_UPLOAD_LIMIT then Except.error ()
    else consumeUpload rest readBytes'

/-- `server.post("/upload")` (part_000 lines 70-85) composed with the
`onError` handler (lines 106-111): pipe the request body (absent bodies
skip the pipe via `?.`), then answer 200 with the kilobyte count
`readBytes >> 10` as text; a sink error becomes an `HTTPException` with
status 400, rendered as `"400 Bad Request"`. -/
def uploadRoute (body : Option (List Nat)) : HttpResponse :=
  let piped : Except Unit Nat :=
    match body with
    | none => Except.ok 0
    | some chunks => consumeUpload chunks 0
  match piped with
  | Except.ok readBytes => { status := 200, body := toString (readBytes >>> 10) }
  | Except.error _ => { status := 400, body := "400 Bad Request" }

/-- The download `ReadableStream` (part_000 lines 50-61) run by a consumer
that keeps pulling: each pull enqueues one `DATA_CHUNK` (recorded by its
size) and increments `enqueuedChunks`; when the counter equals
`chunkCount` the controller closes the stream.  `fuel` is the number of
pulls the consumer is willing to perform; the boolean records whether the
stream was closed (normal end-of-data) within that many pulls. -/
def runDownloadStream : Nat → Nat → Nat → List Nat × Bool
  | 0, _, _ => ([], false)
  | fuel + 1, chunkCount, enqueuedChunks =>
    let enqueuedChunks' := enqueuedChunks + 1
    if enqueuedChunks' = chunkCount then ([DATA_CHUNK_SIZE], true)
    else
      let rest := runDownloadStream fuel chunkCount enqueuedChunks'
      (DATA_CHUNK_SIZE :: rest.1, rest.2)

/-- `const contentLength = chunkCount * DATA_CHUNK_SIZE` (part_000 line 47),
declared in the `Content-Length` header (line 63). -/
def downloadContentLength (chunkCount : Nat) : Nat :=
  chunkCount * DATA_CHUNK_SIZE

/-- The route pattern `/download/:size{[1-9][0-9]*}` (part_000 line 45):
the `size` path segment matches iff it is a nonzero digit followed by
digits.  A non-matching segment leaves the request unrouted (Hono answers
404 Not Found). -/
def sizeSegmentMatches (s : String) : Bool :=
  match s.data with
  | [] => false
  | c :: rest => (c.isDigit && c ≠ '0') && rest.all Char.isDigit

end HonoServer

namespace LegacyServer

/-- `const dataChunk = new Uint8Array(1 << 10)` (server.ts line 57): 1 KiB. -/
def dataChunkSize : Nat := 1 <<< 10

/-- `const MAX_UPLOAD_LIMIT = 1 << 20` (server.ts line 86): 1 MiB. -/
def MAX_UPLOAD_LIMIT : Nat := 1 <<< 20

/-- Decimal digit-run value, most significant first. -/
def digitsVal (ds : List Char) : Nat :=
  ds.foldl (fun acc c => acc * 10 + (c.toNat - 48)) 0

/-- `Number.parseInt` (radix 10) as used on the `size` query parameter
(server.ts line 66): an optional sign followed by a run of decimal digits;
parsing stops at the first non-digit; if no digit is found the result is
`NaN`, modelled as `none`. -/
def parseIntJS (s : String) : Option Int :=
  match s.data with
  | '-' :: rest =>
    match rest.takeWhile Char.isDigit with
    | [] => none
    | ds => some (-(digitsVal ds : Int))
  | '+' :: rest =>
    match rest.takeWhile Char.isDigit with
    | [] => none
    | ds => some ((digitsVal ds : Int))
  | cs =>
    match cs.takeWhile Char.isDigit with
    | [] => none
    | ds => some ((digitsVal ds : Int))

/-- Outcome of `downloadHandler` (server.ts lines 64-83) as seen through
`speedTestHandler`'s try/catch (lines 17-35): a failed `assert` becomes a
400 Bad Request with no body stream; on success the response carries the
`Content-length` header value and the validated size (number of 1 KiB
blocks to stream). -/
inductive DownloadResult where
  | badRequest
  | ok (contentLength : Int) (size : Nat)
deriving DecidableEq, Repr

/-- `Content-length: ${size << 10}` (server.ts line 81): a JavaScript
32-bit shift. -/
def contentLengthHeader (size : Nat) : Int :=
  toInt32 (size <<< 10)

/-- `downloadHandler` (server.ts lines 64-83): parse the `size` query
parameter with `Number.parseInt` (an absent parameter is `null`, which
coerces to the non-numeric string `"null"`, hence `NaN`), assert
`size > 0` (an assert on `NaN` or a non-positive number throws, caught as
400), then build the streaming response. -/
def downloadHandler (sizeParam : Option String) : DownloadResult :=
  match sizeParam with
  | none => DownloadResult.badRequest
  | some s =>
    match parseIntJS s with
    | none => DownloadResult.badRequest
    | some n =>
      if 0 < n then DownloadResult.ok (contentLengthHeader n.toNat) n.toNat
      else DownloadResult.badRequest

/-- The legacy download `ReadableStream` (server.ts lines 70-78) run by a
consumer that keeps pulling: each pull enqueues `dataChunk`, decrements
`remainingBlocks`, and closes the stream once `remainingBlocks <= 0`.
`fuel` bounds the consumer's pulls; the boolean records normal closure. -/
def runLegacyStream : Nat → Int → List Nat × Bool
  | 0, _ => ([], false)
  | fuel + 1, remainingBlocks =>
    let remaining' := remainingBlocks - 1
    if remaining' ≤ 0 then ([dataChunkSize], true)
    else
      let rest := runLegacyStream fuel remaining'
      (dataChunkSize :: rest.1, rest.2)

end LegacyServer

namespace MainClient

/-- Observable counters of one run of `testLatency` (main.ts lines 75-118):
probe messages sent, replies received, and whether the promise resolved. -/
structure LatencyRun where
  pingsSent : Nat
  pongsReceived : Nat
  resolved : Bool
deriving DecidableEq, Repr

/-- The `message` listener loop of `testLatency` (main.ts lines 90-107),
against a server that answers every `"ping"` with one `"pong"`: each
delivered `"pong"` increments the counter; when the counter reaches
`pingCount` the promise resolves, otherwise one more `"ping"` is sent.
`fuel` is the number of `"pong"` deliveries the environment performs. -/
def latencyLoop : Nat → Nat → Nat → Nat → LatencyRun
  | 0, _, sent, received => { pingsSent := sent, pongsReceived := received, resolved := false }
  | fuel + 1, pingCount, sent, received =>
    let received' := received + 1
    if received' = pingCount then
      { pingsSent := sent, pongsReceived := received', resolved := true }
    else latencyLoop fuel pingCount (sent + 1) received'

/-- A full `testLatency` run: the `open` listener (main.ts lines 109-112)
sends the first `"ping"`, then the message loop runs. -/
def testLatencyRun (fuel pingCount : Nat) : LatencyRun :=
  latencyLoop fuel pingCount 1 0

/-- `const latencyMs = durationMs / pingCount` (main.ts line 95). -/
def latencyMs (durationMs : ℚ) (pingCount : Nat) : ℚ :=
  durationMs / pingCount

/-- `deadline` (main.ts lines 183-188): race the operation against a timer
that rejects with `Error("Deadline reached")` after `ms` milliseconds.
The operation is modelled by its settling: `none` never settles,
`some (t, r)` settles at time `t` with outcome `r` (a resolution or a
rejection with a message). -/
def deadlineRace {α : Type} (op : Option (Nat × Except String α)) (ms : Nat) :
    Except String α :=
  match op with
  | none => Except.error "Deadline reached"
  | some (t, r) => if t ≤ ms then r else Except.error "Deadline reached"

/-- One entry of the aggregated result (main.ts lines 34-39): either the
sub-test's success payload or `{ok: false, error}` with the caught
reason. -/
inductive SubTestOutcome (α : Type) where
  | success (v : α)
  | failure (reason : String)
deriving DecidableEq, Repr

/-- The per-sub-test try/catch body of `speedTest` (main.ts lines 55-64):
a fulfilled promise is stored as-is, a rejection is caught and stored as
`{ok: false, error: message}`. -/
def runSubTest {α : Type} (outcome : Except String α) : SubTestOutcome α :=
  match outcome with
  | Except.ok v => SubTestOutcome.success v
  | Except.error e => SubTestOutcome.failure e

/-- `Object.keys(TESTS)` (main.ts lines 27-31, 54). -/
def TESTS : List String := ["latency", "download", "upload"]

/-- The aggregation loop of `speedTest` (main.ts lines 53-65): for each
sub-test name, run that sub-test under the deadline wrapper inside its own
try/catch and record one entry.  `behavior` gives each sub-test's settling
(time and outcome) as seen by the race. -/
def speedTest {α : Type} (deadlineMs : Nat)
    (behavior : String → Option (Nat × Except String α)) :
    List (String × SubTestOutcome α) :=
  TESTS.map (fun testName =>
    (testName, runSubTest (deadlineRace (behavior testName) deadlineMs)))

/-- `calculateMbps` (main.ts lines 174-178): `megabytes << 3` is a
JavaScript 32-bit shift; the rest is exact arithmetic, modelled in ℚ. -/
def calculateMbps (megabytes : Nat) (milliseconds : ℚ) : ℚ :=
  let megabits : Int := toInt32 (megabytes * 8)
  let seconds : ℚ := milliseconds / 1000
  (megabits : ℚ) / seconds

end MainClient

namespace LegacyClient

/-- One sub-test result of the legacy client (client.ts): a success
payload `{ok: true, ...}`, a transport failure `{ok: false}` (lines
110-113), or a deadline failure `{ok: false, deadline: true}` (line
185). -/
inductive ClientSubResult (α : Type) where
  | success (v : α)
  | transportFailure
  | deadlineFailure
deriving DecidableEq, Repr

/-- `deadline` (client.ts lines 183-188): race the operation against a
timer that resolves `{ok: false, deadline: true}` after `ms`
milliseconds. -/
def clientDeadline {α : Type} (op : Option (Nat × ClientSubResult α)) (ms : Nat) :
    ClientSubResult α :=
  match op with
  | none => ClientSubResult.deadlineFailure
  | some (t, r) => if t ≤ ms then r else ClientSubResult.deadlineFailure

/-- `downloadMegabytes * 8 / durationMs * 1000` (client.ts line 137; the
upload variant at line 171 is identical): JavaScript's left-associative
float arithmetic, modelled in ℚ. -/
def clientSpeedMbps (megabytes : Nat) (durationMs : ℚ) : ℚ :=
  (megabytes : ℚ) * 8 / durationMs * 1000

/-- The aggregated record returned by `speedTestClient` (client.ts lines
67-71): one entry per sub-test. -/
structure ClientSpeedTestResult (α : Type) where
  latency : ClientSubResult α
  download : ClientSubResult α
  upload : ClientSubResult α
deriving DecidableEq, Repr

/-- `deadline` (client.ts lines 183-188) racing an operation whose
settling may also be a rejection — as happens when a bare `await fetch`
inside `testDownload`/`testUpload` (lines 133, 164) rejects:
`Promise.race` settles with whichever settles first and propagates a
rejection unchanged, while the timer resolves the deadline tag. -/
def clientDeadlineRace {α : Type}
    (op : Option (Nat × Except String (ClientSubResult α))) (ms : Nat) :
    Except String (ClientSubResult α) :=
  match op with
  | none => Except.ok ClientSubResult.deadlineFailure
  | some (t, r) => if t ≤ ms then r else Except.ok ClientSubResult.deadlineFailure

/-- `speedTestClient` (client.ts lines 31-72): three sequential awaited
deadline races with no try/catch around any of them, so a rejection
propagates out of the function at once (the later sub-tests never run);
only when all three awaits fulfil is the record with one entry per
sub-test assembled. -/
def speedTestClient {α : Type}
    (lat dl ul : Option (Nat × Except String (ClientSubResult α))) (ms : Nat) :
    Except String (ClientSpeedTestResult α) := do
  let latencyResult ← clientDeadlineRace lat ms
  let downloadResult ← clientDeadlineRace dl ms
  let uploadResult ← clientDeadlineRace ul ms
  pure { latency := latencyResult, download := downloadResult, upload := uploadResult }

/-- An operation that only ever resolves, never rejects — e.g. client.ts's
`testLatency`, whose error listener resolves `{ok: false}` (lines
110-113), or a timed-out sub-test. -/
def resolvedOnly {α : Type} (op : Option (Nat × ClientSubResult α)) :
    Option (Nat × Except String (ClientSubResult α)) :=
  op.map (fun p => (p.1, Except.ok p.2))

/-- A raw CLI flag value for one numeric option as produced by the
`std/flags` parse (client.ts line 16): absent, or a number.  (A
non-numeric argument arrives as a string; the claims quantify over the
numeric invalid values, which `std/flags` delivers as numbers.) -/
inductive FlagValue where
  | absent
  | num (q : ℚ)
deriving DecidableEq, Repr

/-- The flag handling of client.ts lines 17-22 composed with the spread
of `defaultClientOptions` (lines 34-37), for one numeric option:
`if (flags[key]) acc[key] = Number(flags[key])` keeps any truthy value
completely unvalidated and drops a falsy one — an absent flag, or the
explicitly supplied number 0 — which the spread then silently replaces
by the default. -/
def resolveNumericFlag (dflt : Nat) : FlagValue → ℚ
  | FlagValue.absent => (dflt : ℚ)
  | FlagValue.num q => if q = 0 then (dflt : ℚ) else q

end LegacyClient

namespace Config

/-- A raw value supplied for one numeric option before validation
(main.ts lines 14-21): the field may be absent, may be a non-numeric
value (which `z.coerce.number()` coerces to `NaN`), or a numeric value
`q`. -/
inductive FieldInput where
  | absent
  | nan
  | value (q : ℚ)
deriving DecidableEq, Repr

/-- `z.coerce.number().int().positive().default(dflt)` (main.ts lines
14, 17-20): an absent field takes the default; an explicitly supplied
value must be an integer (`q.den = 1`) and strictly positive, otherwise
validation fails. -/
def parsePositiveInteger (dflt : Nat) : FieldInput → Except String ℚ
  | FieldInput.absent => Except.ok (dflt : ℚ)
  | FieldInput.nan => Except.error "Expected number, received nan"
  | FieldInput.value q =>
    if q.den = 1 then
      if 0 < q then Except.ok q
      else Except.error "Number must be greater than 0"
    else Except.error "Expected integer, received float"

/-- The numeric fields of the parsed configuration (main.ts lines 15-21).
The `server` URL field of `SpeedTestOptionsSchema` is a string validated
independently of the numeric fields and is not involved in any numeric
claim, so it is not modelled here. -/
structure SpeedTestNumericConfig where
  pingCount : ℚ
  downloadMegabytes : ℚ
  uploadMegabytes : ℚ
  deadlineSeconds : ℚ
deriving DecidableEq, Repr

/-- `SpeedTestOptionsSchema.parse` on the numeric fields (main.ts lines
15-21, 46): every field is validated by `parsePositiveInteger` with its
schema default; any field failing validation fails the whole parse. -/
def parseSpeedTestOptions (pc dl ul ds : FieldInput) :
    Except String SpeedTestNumericConfig := do
  let pingCount ← parsePositiveInteger 100 pc
  let downloadMegabytes ← parsePositiveInteger 50 dl
  let uploadMegabytes ← parsePositiveInteger 50 ul
  let deadlineSeconds ← parsePositiveInteger 30 ds
  pure { pingCount := pingCount, downloadMegabytes := downloadMegabytes,
         uploadMegabytes := uploadMegabytes, deadlineSeconds := deadlineSeconds }

/-- `true` iff the parse succeeded. -/
def exceptIsOk {ε α : Type} : Except ε α → Bool
  | Except.ok _ => true
  | Except.error _ => false

end Config

/-! ## Helper lemmas about the upload sink -/

namespace HonoServer

/-- If the whole body fits under the cap, the sink reads it all. -/
theorem consumeUpload_ok_of_le (chunks : List Nat) :
    ∀ acc, acc + chunks.sum ≤ MAX_UPLOAD_LIMIT →
      consumeUpload chunks acc = Except.ok (acc + chunks.sum) := by
  induction chunks with
  | nil => intro acc h; simp [consumeUpload]
  | cons c rest ih =>
    intro acc h
    simp only [List.sum_cons] at h
    have hle : ¬ (acc + c > MAX_UPLOAD_LIMIT) := by omega
    simp only [consumeUpload]
    rw [if_neg hle, ih (acc + c) (by omega)]
    simp only [List.sum_cons]
    congr 1
    omega

/-- If the body exceeds the cap, the sink throws at some chunk. -/
theorem consumeUpload_error_of_gt (chunks : List Nat) :
    ∀ acc, acc ≤ MAX_UPLOAD_LIMIT → MAX_UPLOAD_LIMIT < acc + chunks.sum →
      consumeUpload chunks acc = Except.error () := by
  induction chunks with
  | nil =>
    intro acc h1 h2
    simp only [List.sum_nil] at h2
    omega
  | cons c rest ih =>
    intro acc h1 h2
    simp only [List.sum_cons] at h2
    simp only [consumeUpload]
    by_cases hc : acc + c > MAX_UPLOAD_LIMIT
    · rw [if_pos hc]
    · rw [if_neg hc]
      exact ih (acc + c) (by omega) (by omega)

/-- The running counter never exceeds the cap on the success path. -/
theorem consumeUpload_ok_le (chunks : List Nat) :
    ∀ acc b, consumeUpload chunks acc = Except.ok b → acc ≤ MAX_UPLOAD_LIMIT →
      b ≤ MAX_UPLOAD_LIMIT := by
  induction chunks with
  | nil =>
    intro acc b h hacc
    simp only [consumeUpload, Except.ok.injEq] at h
    omega
  | cons c rest ih =>
    intro acc b h hacc
    simp only [consumeUpload] at h
    by_cases hc : acc + c > MAX_UPLOAD_LIMIT
    · rw [if_pos hc] at h; cases h
    · rw [if_neg hc] at h
      exact ih _ _ h (by omega)

end HonoServer

/-! ## Claims about the upload endpoint -/

/-- Claim C1: an upload whose body totals `b` bytes with
`b ≤ MAX_UPLOAD_LIMIT` (1 MiB) succeeds with status 200 and the plain-text
decimal string of `b >>> 10` (the kilobyte count); an upload with
`b > MAX_UPLOAD_LIMIT` is aborted with a 400 error and never answered
with a 200. -/
theorem upload_cap_behavior (chunks : List Nat) :
    (chunks.sum ≤ HonoServer.MAX_UPLOAD_LIMIT →
      HonoServer.uploadRoute (some chunks) =
        { status := 200, body := toString (chunks.sum >>> 10) }) ∧
    (HonoServer.MAX_UPLOAD_LIMIT < chunks.sum →
      (HonoServer.uploadRoute (some chunks)).status = 400 ∧
      (HonoServer.uploadRoute (some chunks)).status ≠ 200) := by
  constructor
  · intro h
    have hok := HonoServer.consumeUpload_ok_of_le chunks 0 (by omega)
    simp [HonoServer.uploadRoute, hok]
  · intro h
    have herr := HonoServer.consumeUpload_error_of_gt chunks 0 (Nat.zero_le _) (by omega)
    simp [HonoServer.uploadRoute, herr]

/-- Witness for C1: a 2 KiB upload answers `200 "2"`; an upload of
1 MiB + 1 byte is answered with status 400. -/
theorem upload_cap_behavior_witness :
    HonoServer.uploadRoute (some [2048]) = { status := 200, body := "2" } ∧
    (HonoServer.uploadRoute (some [1048577])).status = 400 := by
  constructor
  · exact ((upload_cap_behavior [2048]).1 (by decide)).trans (by decide)
  · exact ((upload_cap_behavior [1048577]).2 (by decide)).1

/-- Claim C9: a POST to the upload endpoint with an absent or empty body
succeeds (the over-limit branch is never taken) and returns the plain-text
string `"0"`. -/
theorem upload_empty_body_zero :
    HonoServer.uploadRoute none = { status := 200, body := "0" } ∧
    HonoServer.uploadRoute (some []) = { status := 200, body := "0" } :=
  ⟨rfl, rfl⟩

/-- Claim C10: whenever the upload sink completes successfully, the
accumulated byte counter is at most `MAX_UPLOAD_LIMIT`, so every 200
response reports at most `MAX_UPLOAD_LIMIT >>> 10 = 1024` kilobytes. -/
theorem upload_success_bounded (chunks : List Nat) (readBytes : Nat)
    (h : HonoServer.consumeUpload chunks 0 = Except.ok readBytes) :
    readBytes ≤ HonoServer.MAX_UPLOAD_LIMIT ∧
    readBytes >>> 10 ≤ HonoServer.MAX_UPLOAD_LIMIT >>> 10 ∧
    HonoServer.MAX_UPLOAD_LIMIT >>> 10 = 1024 ∧
    HonoServer.uploadRoute (some chunks) =
      { status := 200, body := toString (readBytes >>> 10) } := by
  have hb : readBytes ≤ HonoServer.MAX_UPLOAD_LIMIT :=
    HonoServer.consumeUpload_ok_le chunks 0 readBytes h (Nat.zero_le _)
  refine ⟨hb, ?_, by decide, ?_⟩
  · simp only [Nat.shiftRight_eq_div_pow]
    exact Nat.div_le_div_right hb
  · simp [HonoServer.uploadRoute, h]

/-- Witness for C10: a five-byte upload. -/
theorem upload_success_bounded_witness :
    5 ≤ HonoServer.MAX_UPLOAD_LIMIT ∧
    5 >>> 10 ≤ HonoServer.MAX_UPLOAD_LIMIT >>> 10 ∧
    HonoServer.MAX_UPLOAD_LIMIT >>> 10 = 1024 ∧
    HonoServer.uploadRoute (some [5]) =
      { status := 200, body := toString ((5 : Nat) >>> 10) } :=
  upload_success_bounded [5] 5 (by rfl)

/-! ## Helper lemmas about the download streams -/

namespace HonoServer

/-- A consumer that pulls at least `chunkCount - enqueued` times receives
exactly the remaining chunks and sees the stream closed. -/
theorem runDownloadStream_closes (fuel : Nat) :
    ∀ chunkCount enqueued, enqueued < chunkCount → chunkCount - enqueued ≤ fuel →
      runDownloadStream fuel chunkCount enqueued =
        (List.replicate (chunkCount - enqueued) DATA_CHUNK_SIZE, true) := by
  induction fuel with
  | zero => intro c e h1 h2; omega
  | succ fuel ih =>
    intro c e h1 h2
    simp only [runDownloadStream]
    by_cases hc : e + 1 = c
    · rw [if_pos hc]
      have hce : c - e = 1 := by omega
      rw [hce]
      rfl
    · rw [if_neg hc]
      rw [ih c (e + 1) (by omega) (by omega)]
      have hce : c - e = (c - (e + 1)) + 1 := by omega
      rw [hce, List.replicate_succ]

end HonoServer

namespace LegacyServer

/-- A consumer that pulls at least `remaining` times receives exactly
`remaining` chunks and sees the stream closed. -/
theorem runLegacyStream_closes (fuel : Nat) :
    ∀ remaining : Int, 0 < remaining → remaining.toNat ≤ fuel →
      runLegacyStream fuel remaining =
        (List.replicate remaining.toNat dataChunkSize, true) := by
  induction fuel with
  | zero => intro r h1 h2; omega
  | succ fuel ih =>
    intro r h1 h2
    simp only [runLegacyStream]
    by_cases hc : r - 1 ≤ 0
    · rw [if_pos hc]
      have hr : r.toNat = 1 := by omega
      rw [hr]
      rfl
    · rw [if_neg hc]
      rw [ih (r - 1) (by omega) (by omega)]
      have hr : r.toNat = (r - 1).toNat + 1 := by omega
      rw [hr, List.replicate_succ]

/-- Below the 32-bit wrap the `size << 10` header is exact. -/
theorem contentLengthHeader_exact (size : Nat) (h : size < 2 ^ 21) :
    contentLengthHeader size = ((size * dataChunkSize : Nat) : Int) := by
  have h1 : size <<< 10 = size * 1024 := by
    rw [Nat.shiftLeft_eq]
  have h2 : size * 1024 < 2 ^ 31 := by omega
  have h3 : (size * 1024) % 2 ^ 32 = size * 1024 := Nat.mod_eq_of_lt (by omega)
  unfold contentLengthHeader toInt32
  rw [h1, h3, if_pos h2]
  have h4 : dataChunkSize = 1024 := by rfl
  rw [h4]

end LegacyServer

/-! ## Claims about the download endpoint -/

/-- Counterexample for C2: the claim quantifies over every positive `n`,
but the legacy server (server.ts) computes the `Content-length` header as
the 32-bit shift `size << 10`, which wraps for `n = 2^21 = 2097152`: the
request is accepted (the parameter parses and is positive) yet the header
declares `-2147483648` while the stream totals `2^21 × 1024 = 2^31`
bytes. -/
theorem download_content_length_counterexample :
    LegacyServer.downloadHandler (some "2097152") =
      LegacyServer.DownloadResult.ok (-2147483648) 2097152 ∧
    ((-2147483648 : Int) ≠ ((2097152 * LegacyServer.dataChunkSize : Nat) : Int)) := by
  constructor
  · decide
  · decide

/-- Claim C2 (amended): for every positive `n` and any consumer pulling at
least `n` times, the Hono server's download stream enqueues the 64 KiB
chunk exactly `n` times and closes normally, its byte total and declared
`Content-Length` both being `n × DATA_CHUNK_SIZE`; the legacy server's
stream likewise yields exactly `n` chunks of 1 KiB, and its
`Content-length` header equals `n × 1024` additionally assuming
`n < 2^21` (the 32-bit bound of its `size << 10`). -/
theorem download_stream_exact (n fuel : Nat) (h1 : 1 ≤ n) (h2 : n ≤ fuel) :
    HonoServer.runDownloadStream fuel n 0 =
      (List.replicate n HonoServer.DATA_CHUNK_SIZE, true) ∧
    (HonoServer.runDownloadStream fuel n 0).1.sum = n * HonoServer.DATA_CHUNK_SIZE ∧
    HonoServer.downloadContentLength n = n * HonoServer.DATA_CHUNK_SIZE ∧
    LegacyServer.runLegacyStream fuel (n : Int) =
      (List.replicate n LegacyServer.dataChunkSize, true) ∧
    (LegacyServer.runLegacyStream fuel (n : Int)).1.sum = n * LegacyServer.dataChunkSize ∧
    (n < 2 ^ 21 →
      LegacyServer.contentLengthHeader n = ((n * LegacyServer.dataChunkSize : Nat) : Int)) := by
  have hh := HonoServer.runDownloadStream_closes fuel n 0 (by omega) (by omega)
  have hn : ((n : Int)).toNat = n := by omega
  have hl := LegacyServer.runLegacyStream_closes fuel (n : Int) (by omega) (by omega)
  rw [hn] at hl
  have hcut : n - 0 = n := by omega
  rw [hcut] at hh
  refine ⟨hh, ?_, rfl, hl, ?_, fun hlt => LegacyServer.contentLengthHeader_exact n hlt⟩
  · rw [hh]
    simp [List.sum_replicate, smul_eq_mul]
  · rw [hl]
    simp [List.sum_replicate, smul_eq_mul]

/-! ## Helper lemmas about the latency runner -/

namespace MainClient

/-- With enough `"pong"` deliveries, the loop resolves exactly when the
counter reaches `pingCount`, having sent one probe per reply. -/
theorem latencyLoop_resolves (fuel : Nat) :
    ∀ k sent received, received < k → k - received ≤ fuel →
      latencyLoop fuel k sent received =
        { pingsSent := sent + (k - received) - 1, pongsReceived := k, resolved := true } := by
  induction fuel with
  | zero => intro k sent received h1 h2; omega
  | succ fuel ih =>
    intro k sent received h1 h2
    simp only [latencyLoop]
    by_cases hc : received + 1 = k
    · rw [if_pos hc]
      simp only [LatencyRun.mk.injEq, and_true, true_and]
      all_goals omega
    · rw [if_neg hc]
      rw [ih k (sent + 1) (received + 1) (by omega) (by omega)]
      simp only [LatencyRun.mk.injEq, and_true, true_and]
      all_goals omega

/-- With fewer deliveries than needed, the loop is still pending: each
delivered reply triggered one more probe. -/
theorem latencyLoop_pending (fuel : Nat) :
    ∀ k sent received, fuel + received < k →
      latencyLoop fuel k sent received =
        { pingsSent := sent + fuel, pongsReceived := received + fuel, resolved := false } := by
  induction fuel with
  | zero =>
    intro k sent received h
    simp [latencyLoop]
  | succ fuel ih =>
    intro k sent received h
    simp only [latencyLoop]
    rw [if_neg (by omega)]
    rw [ih k (sent + 1) (received + 1) (by omega)]
    simp only [LatencyRun.mk.injEq, and_true, true_and]
    all_goals omega

end MainClient

/-! ## Claim about the latency runner -/

/-- Claim C3: against a server answering every probe, a latency run with
`pingCount = k ≥ 1` sends exactly `k` probes and receives exactly `k`
replies before resolving (with fewer than `k` delivered replies it has
not resolved), and `latencyMs × k = durationMs` where
`latencyMs = durationMs / pingCount`. -/
theorem latency_runner_exact (k fuel : Nat) (d : ℚ) (hk : 1 ≤ k) :
    (k ≤ fuel → MainClient.testLatencyRun fuel k =
      { pingsSent := k, pongsReceived := k, resolved := true }) ∧
    (fuel < k → MainClient.testLatencyRun fuel k =
      { pingsSent := 1 + fuel, pongsReceived := fuel, resolved := false }) ∧
    MainClient.latencyMs d k * (k : ℚ) = d := by
  refine ⟨?_, ?_, ?_⟩
  · intro hf
    rw [MainClient.testLatencyRun, MainClient.latencyLoop_resolves fuel k 1 0 (by omega) (by omega)]
    simp only [MainClient.LatencyRun.mk.injEq, and_true, true_and]
    all_goals omega
  · intro hf
    rw [MainClient.testLatencyRun, MainClient.latencyLoop_pending fuel k 1 0 (by omega)]
    simp only [MainClient.LatencyRun.mk.injEq, and_true, true_and]
    all_goals omega
  · have hk0 : (k : ℚ) ≠ 0 := by
      exact_mod_cast Nat.pos_iff_ne_zero.mp (by omega)
    rw [MainClient.latencyMs]
    exact div_mul_cancel₀ d hk0

/-- Witness for C3: `pingCount = 2`, with two deliveries (resolved), with
one delivery (pending), and the exact average identity at
`durationMs = 5`. -/
theorem latency_runner_exact_witness :
    MainClient.testLatencyRun 2 2 =
      { pingsSent := 2, pongsReceived := 2, resolved := true } ∧
    MainClient.testLatencyRun 1 2 =
      { pingsSent := 2, pongsReceived := 1, resolved := false } ∧
    MainClient.latencyMs 5 2 * ((2 : Nat) : ℚ) = 5 :=
  ⟨(latency_runner_exact 2 2 5 (by decide)).1 (by decide),
   (latency_runner_exact 2 1 5 (by decide)).2.1 (by decide),
   (latency_runner_exact 2 2 5 (by decide)).2.2⟩

/-! ## Claims about the aggregator and the deadline wrapper -/

namespace LegacyClient

/-- Racing an operation that only resolves coincides with the
rejection-free race model. -/
theorem clientDeadlineRace_resolvedOnly {α : Type}
    (op : Option (Nat × ClientSubResult α)) (ms : Nat) :
    clientDeadlineRace (resolvedOnly op) ms = Except.ok (clientDeadline op ms) := by
  cases op with
  | none => rfl
  | some p =>
    cases p with
    | mk t r =>
      simp only [resolvedOnly, Option.map, clientDeadlineRace, clientDeadline]
      by_cases h : t ≤ ms
      · rw [if_pos h, if_pos h]
      · rw [if_neg h, if_neg h]

end LegacyClient

/-- Counterexample for C4: the claim also covers client.ts's
`speedTestClient`, which has no per-sub-test try/catch.  With the latency
sub-test succeeding at 1 ms, the download sub-test's `fetch` rejecting at
2 ms (within the 30 ms budget, so the race propagates the rejection) and
the upload sub-test ready to succeed at 3 ms, the whole run rejects with
the raw transport error: the upload sub-test never runs, nothing is
converted to a Failure record, and no aggregated result with one entry
per sub-test is produced. -/
theorem aggregator_throws_counterexample :
    LegacyClient.speedTestClient
        (some (1, Except.ok (LegacyClient.ClientSubResult.success 0)))
        (some (2, Except.error "fetch failed"))
        (some (3, Except.ok (LegacyClient.ClientSubResult.success 0))) 30 =
      Except.error "fetch failed" ∧
    Config.exceptIsOk (LegacyClient.speedTestClient
        (some (1, Except.ok (LegacyClient.ClientSubResult.success 0)))
        (some (2, Except.error "fetch failed"))
        (some (3, Except.ok (LegacyClient.ClientSubResult.success 0))) 30) = false :=
  ⟨rfl, rfl⟩

/-- Claim C4 (amended): in main.ts's `speedTest` the aggregator produces
exactly one populated entry per sub-test, in the fixed order of `TESTS`;
each entry is the deadline-wrapped outcome of that sub-test alone (so a
failing sub-test leaves the others' entries untouched, and the remaining
sub-tests still run); every rejection is converted by the per-sub-test
try/catch into a `failure` record carrying its reason, and every
fulfilment into a `success` record, so the aggregator itself never
propagates an exception.  client.ts's `speedTestClient` has no such
per-sub-test catch, and only its non-rejecting runs enjoy the property:
whenever no sub-test rejects (each settles with a resolution, or not at
all within the budget), the run fulfils with a record holding one
deadline-raced entry per sub-test, each determined by that sub-test
alone. -/
theorem aggregator_isolates_failures {α : Type} (ms : Nat)
    (behavior : String → Option (Nat × Except String α))
    (lat dl ul : Option (Nat × LegacyClient.ClientSubResult α)) :
    (MainClient.speedTest ms behavior).map Prod.fst = MainClient.TESTS ∧
    (MainClient.speedTest ms behavior).lookup "latency" =
      some (MainClient.runSubTest (MainClient.deadlineRace (behavior "latency") ms)) ∧
    (MainClient.speedTest ms behavior).lookup "download" =
      some (MainClient.runSubTest (MainClient.deadlineRace (behavior "download") ms)) ∧
    (MainClient.speedTest ms behavior).lookup "upload" =
      some (MainClient.runSubTest (MainClient.deadlineRace (behavior "upload") ms)) ∧
    (∀ e : String, MainClient.runSubTest (Except.error e : Except String α) =
      MainClient.SubTestOutcome.failure e) ∧
    (∀ v : α, MainClient.runSubTest (Except.ok v : Except String α) =
      MainClient.SubTestOutcome.success v) ∧
    LegacyClient.speedTestClient (LegacyClient.resolvedOnly lat)
      (LegacyClient.resolvedOnly dl) (LegacyClient.resolvedOnly ul) ms =
      Except.ok { latency := LegacyClient.clientDeadline lat ms,
                  download := LegacyClient.clientDeadline dl ms,
                  upload := LegacyClient.clientDeadline ul ms } := by
  refine ⟨rfl, rfl, rfl, rfl, fun _ => rfl, fun _ => rfl, ?_⟩
  simp only [LegacyClient.speedTestClient, LegacyClient.clientDeadlineRace_resolvedOnly]
  rfl

/-- Claim C5: when the wrapped operation has not settled within the budget
(`ms < t`, including an operation that never settles), both deadline
wrappers settle through the timeout path: the legacy client's wrapper
yields the `deadlineFailure` tag, which is distinct from the
`transportFailure` tag, and the main client's wrapper rejects with
`"Deadline reached"`; the timed-out result does not depend on the
operation's eventual outcome (it is discarded, the operation is not
cancelled). -/
theorem deadline_timeout_tagged {α : Type} (ms t : Nat)
    (r r' : LegacyClient.ClientSubResult α) (er : Except String α) (h : ms < t) :
    LegacyClient.clientDeadline (some (t, r)) ms =
      LegacyClient.ClientSubResult.deadlineFailure ∧
    LegacyClient.clientDeadline (none : Option (Nat × LegacyClient.ClientSubResult α)) ms =
      LegacyClient.ClientSubResult.deadlineFailure ∧
    LegacyClient.clientDeadline (some (t, r)) ms =
      LegacyClient.clientDeadline (some (t, r')) ms ∧
    (LegacyClient.ClientSubResult.deadlineFailure : LegacyClient.ClientSubResult α) ≠
      LegacyClient.ClientSubResult.transportFailure ∧
    MainClient.deadlineRace (some (t, er)) ms = Except.error "Deadline reached" ∧
    MainClient.deadlineRace (none : Option (Nat × Except String α)) ms =
      Except.error "Deadline reached" := by
  have hnot : ¬ t ≤ ms := by omega
  refine ⟨?_, rfl, ?_, ?_, ?_, rfl⟩
  · simp [LegacyClient.clientDeadline, hnot]
  · simp [LegacyClient.clientDeadline, hnot]
  · intro hcon
    cases hcon
  · simp [MainClient.deadlineRace, hnot]

/-- Witness for C5: a 30 ms budget against an operation settling at
40 ms. -/
theorem deadline_timeout_tagged_witness :
    LegacyClient.clientDeadline (some (40, LegacyClient.ClientSubResult.success 7)) 30 =
      LegacyClient.ClientSubResult.deadlineFailure ∧
    MainClient.deadlineRace (some (40, Except.ok 7)) 30 =
      Except.error "Deadline reached" := by
  have h := @deadline_timeout_tagged Nat 30 40 (LegacyClient.ClientSubResult.success 7)
    LegacyClient.ClientSubResult.transportFailure (Except.ok 7) (by omega)
  exact ⟨h.1, h.2.2.2.2.1⟩

/-! ## Claims about request and configuration validation -/

/-- Claim C6: a download request whose size parameter is absent,
non-numeric (`parseIntJS` yields `NaN`), zero or negative is rejected by
the legacy server as a 400 Bad Request carrying no stream — never as an
empty success (`badRequest` is distinct from every `ok`); on the Hono
server the same inputs fail the route pattern `[1-9][0-9]*`, so the
request is never routed to the stream (it falls through to 404 Not
Found, a client error with no bytes produced). -/
theorem download_rejects_invalid_size (s : String) :
    LegacyServer.downloadHandler none = LegacyServer.DownloadResult.badRequest ∧
    (LegacyServer.parseIntJS s = none →
      LegacyServer.downloadHandler (some s) = LegacyServer.DownloadResult.badRequest) ∧
    (∀ n : Int, LegacyServer.parseIntJS s = some n → n ≤ 0 →
      LegacyServer.downloadHandler (some s) = LegacyServer.DownloadResult.badRequest) ∧
    (∀ cl : Int, ∀ sz : Nat,
      LegacyServer.DownloadResult.badRequest ≠ LegacyServer.DownloadResult.ok cl sz) ∧
    LegacyServer.downloadHandler (some "0") = LegacyServer.DownloadResult.badRequest ∧
    LegacyServer.downloadHandler (some "-5") = LegacyServer.DownloadResult.badRequest ∧
    LegacyServer.downloadHandler (some "abc") = LegacyServer.DownloadResult.badRequest ∧
    HonoServer.sizeSegmentMatches "0" = false ∧
    HonoServer.sizeSegmentMatches "" = false ∧
    HonoServer.sizeSegmentMatches "-5" = false ∧
    HonoServer.sizeSegmentMatches "abc" = false ∧
    HonoServer.sizeSegmentMatches "12" = true := by
  refine ⟨rfl, ?_, ?_, ?_, by decide, by decide, by decide, by decide, by decide,
    by decide, by decide, by decide⟩
  · intro h
    simp [LegacyServer.downloadHandler, h]
  · intro n h hn
    simp [LegacyServer.downloadHandler, h, not_lt.mpr hn]
  · intro cl sz hcon
    cases hcon

/-- Witness for C6: a non-numeric and a zero size parameter. -/
theorem download_rejects_invalid_size_witness :
    LegacyServer.downloadHandler (some "abc") = LegacyServer.DownloadResult.badRequest ∧
    LegacyServer.downloadHandler (some "0") = LegacyServer.DownloadResult.badRequest :=
  ⟨(download_rejects_invalid_size "abc").2.1 (by decide),
   (download_rejects_invalid_size "0").2.2.1 0 (by decide) (by decide)⟩

/-- Counterexample for C7: the claim also covers client.ts's flag
handling (lines 14-25), which performs no validation at all: an
explicitly supplied `--pingCount=0` is falsy, so the flag is dropped and
silently replaced by the default 100 instead of failing, and explicitly
supplied negative or non-integer values (−5, 5/2) are accepted
unvalidated — no configuration-parse failure occurs anywhere. -/
theorem config_silent_default_counterexample :
    LegacyClient.resolveNumericFlag 100 (LegacyClient.FlagValue.num 0) = (100 : ℚ) ∧
    (100 : ℚ) ≠ (0 : ℚ) ∧
    LegacyClient.resolveNumericFlag 100 (LegacyClient.FlagValue.num (-5)) = (-5 : ℚ) ∧
    LegacyClient.resolveNumericFlag 100 (LegacyClient.FlagValue.num (5 / 2)) =
      (5 / 2 : ℚ) := by
  refine ⟨?_, by norm_num, ?_, ?_⟩
  · norm_num [LegacyClient.resolveNumericFlag]
  · norm_num [LegacyClient.resolveNumericFlag]
  · norm_num [LegacyClient.resolveNumericFlag]

/-- Claim C7 (amended): for main.ts's zod schema, an absent numeric
option takes its schema default and a valid positive integer is kept as
supplied, but an explicitly supplied invalid value — zero or negative,
non-integer, or non-numeric (coerced to `NaN`) — fails validation
instead of being silently defaulted, and any such field failing makes
the whole configuration parse fail.  client.ts's manual flag handling,
by contrast, validates nothing: an explicit 0 is falsy and silently
replaced by the default, and any non-zero numeric value — however
invalid — is accepted unchanged. -/
theorem config_validation (d : Nat) (q : ℚ) (pc dl ul ds : Config.FieldInput) :
    (Config.parsePositiveInteger d Config.FieldInput.absent = Except.ok ((d : Nat) : ℚ)) ∧
    (q.den = 1 → 0 < q →
      Config.parsePositiveInteger d (Config.FieldInput.value q) = Except.ok q) ∧
    (q ≤ 0 →
      Config.exceptIsOk (Config.parsePositiveInteger d (Config.FieldInput.value q)) = false) ∧
    (q.den ≠ 1 →
      Config.exceptIsOk (Config.parsePositiveInteger d (Config.FieldInput.value q)) = false) ∧
    (Config.exceptIsOk (Config.parsePositiveInteger d Config.FieldInput.nan) = false) ∧
    ((Config.exceptIsOk (Config.parsePositiveInteger 100 pc) = false ∨
      Config.exceptIsOk (Config.parsePositiveInteger 50 dl) = false ∨
      Config.exceptIsOk (Config.parsePositiveInteger 50 ul) = false ∨
      Config.exceptIsOk (Config.parsePositiveInteger 30 ds) = false) →
      Config.exceptIsOk (Config.parseSpeedTestOptions pc dl ul ds) = false) ∧
    (Config.parseSpeedTestOptions Config.FieldInput.absent Config.FieldInput.absent
      Config.FieldInput.absent Config.FieldInput.absent =
      Except.ok { pingCount := 100, downloadMegabytes := 50, uploadMegabytes := 50,
                  deadlineSeconds := 30 }) ∧
    (LegacyClient.resolveNumericFlag d LegacyClient.FlagValue.absent = ((d : Nat) : ℚ)) ∧
    (LegacyClient.resolveNumericFlag d (LegacyClient.FlagValue.num 0) = ((d : Nat) : ℚ)) ∧
    (q ≠ 0 → LegacyClient.resolveNumericFlag d (LegacyClient.FlagValue.num q) = q) := by
  refine ⟨rfl, ?_, ?_, ?_, rfl, ?_, rfl, rfl, ?_, ?_⟩
  · intro hden hpos
    simp [Config.parsePositiveInteger, hden, hpos]
  · intro hq
    by_cases hden : q.den = 1 <;>
      simp [Config.parsePositiveInteger, Config.exceptIsOk, hden, not_lt.mpr hq]
  · intro hden
    simp [Config.parsePositiveInteger, Config.exceptIsOk, hden]
  · intro hbad
    unfold Config.parseSpeedTestOptions
    cases hpc : Config.parsePositiveInteger 100 pc with
    | error e => simp [Config.exceptIsOk, Bind.bind, Except.bind, hpc]
    | ok vpc =>
      cases hdl : Config.parsePositiveInteger 50 dl with
      | error e => simp [Config.exceptIsOk, Bind.bind, Except.bind, hpc, hdl]
      | ok vdl =>
        cases hul : Config.parsePositiveInteger 50 ul with
        | error e => simp [Config.exceptIsOk, Bind.bind, Except.bind, hpc, hdl, hul]
        | ok vul =>
          cases hds : Config.parsePositiveInteger 30 ds with
          | error e => simp [Config.exceptIsOk, Bind.bind, Except.bind, hpc, hdl, hul, hds]
          | ok vds =>
            rcases hbad with h | h | h | h <;>
              simp [hpc, hdl, hul, hds, Config.exceptIsOk] at h
  · simp [LegacyClient.resolveNumericFlag]
  · intro h
    simp [LegacyClient.resolveNumericFlag, h]

/-- Witness for C7: `pingCount = 4` is kept, zero is rejected, `5/2` is
rejected, an explicit zero fails the whole parse; client.ts keeps an
explicit −5 unvalidated. -/
theorem config_validation_witness :
    Config.parsePositiveInteger 100 Config.FieldInput.absent = Except.ok ((100 : Nat) : ℚ) ∧
    Config.parsePositiveInteger 100 (Config.FieldInput.value 4) = Except.ok 4 ∧
    Config.exceptIsOk (Config.parsePositiveInteger 50 (Config.FieldInput.value 0)) = false ∧
    Config.exceptIsOk (Config.parsePositiveInteger 50 (Config.FieldInput.value (5 / 2))) = false ∧
    Config.exceptIsOk (Config.parseSpeedTestOptions (Config.FieldInput.value 0)
      Config.FieldInput.absent Config.FieldInput.absent Config.FieldInput.absent) = false ∧
    LegacyClient.resolveNumericFlag 100 (LegacyClient.FlagValue.num (-5)) = (-5 : ℚ) :=
  ⟨(config_validation 100 4 Config.FieldInput.absent Config.FieldInput.absent
      Config.FieldInput.absent Config.FieldInput.absent).1,
   (config_validation 100 4 Config.FieldInput.absent Config.FieldInput.absent
      Config.FieldInput.absent Config.FieldInput.absent).2.1 (by decide) (by decide),
   (config_validation 50 0 Config.FieldInput.absent Config.FieldInput.absent
      Config.FieldInput.absent Config.FieldInput.absent).2.2.1 (by decide),
   (config_validation 50 (5 / 2) Config.FieldInput.absent Config.FieldInput.absent
      Config.FieldInput.absent Config.FieldInput.absent).2.2.2.1 (by norm_num),
   (config_validation 50 0 (Config.FieldInput.value 0) Config.FieldInput.absent
      Config.FieldInput.absent Config.FieldInput.absent).2.2.2.2.2.1
     (Or.inl (by decide)),
   (config_validation 100 (-5) Config.FieldInput.absent Config.FieldInput.absent
      Config.FieldInput.absent Config.FieldInput.absent).2.2.2.2.2.2.2.2.2
     (by norm_num)⟩

/-! ## Claims about the speed computation -/

/-- Counterexample for C8: the configuration schema accepts any positive
integer, in particular `downloadMegabytes = 2^29 = 536870912`, yet
`calculateMbps` computes the megabit count with the 32-bit JavaScript
shift `megabytes << 3`, which wraps `2^29 << 3` to 0 — so the computed
speed is 0 instead of the claimed `(2^29 × 8) / (1000 / 1000) = 2^32`
Mbps at a one-second duration. -/
theorem calculateMbps_overflow_counterexample :
    Config.parsePositiveInteger 50 (Config.FieldInput.value ((536870912 : Nat) : ℚ)) =
      Except.ok ((536870912 : Nat) : ℚ) ∧
    MainClient.calculateMbps 536870912 1000 = 0 ∧
    ((((536870912 : Nat) : ℚ) * 8) / (1000 / 1000) : ℚ) = 4294967296 ∧
    (0 : ℚ) ≠ 4294967296 := by
  refine ⟨?_, ?_, by norm_num, by norm_num⟩
  · have hden : (((536870912 : Nat) : ℚ)).den = 1 := by norm_num
    have hpos : (0 : ℚ) < ((536870912 : Nat) : ℚ) := by norm_num
    simp [Config.parsePositiveInteger, hden, hpos]
  · have h0 : toInt32 (536870912 * 8) = 0 := by norm_num [toInt32]
    simp [MainClient.calculateMbps, h0]

/-- Claim C8 (amended): for every positive integer `u < 2^28` (so that the
32-bit shift `u << 3` does not wrap) and every positive duration `d`, the
main client's `calculateMbps u d` and the legacy client's
`u * 8 / d * 1000` both equal `(u × 8) / (d / 1000)` megabits per
second. -/
theorem calculateMbps_formula (u : Nat) (d : ℚ) (hu : 0 < u) (hub : u < 2 ^ 28)
    (hd : 0 < d) :
    MainClient.calculateMbps u d = ((u : ℚ) * 8) / (d / 1000) ∧
    LegacyClient.clientSpeedMbps u d = ((u : ℚ) * 8) / (d / 1000) := by
  have h8 : u * 8 < 2 ^ 31 := by omega
  have hmod : (u * 8) % 2 ^ 32 = u * 8 := Nat.mod_eq_of_lt (by omega)
  have ht : toInt32 (u * 8) = ((u * 8 : Nat) : Int) := by
    unfold toInt32
    rw [hmod, if_pos h8]
  have hd0 : d ≠ 0 := ne_of_gt hd
  constructor
  · unfold MainClient.calculateMbps
    rw [ht]
    push_cast
    rfl
  · unfold LegacyClient.clientSpeedMbps
    field_simp

/-- Witness for C8: one megabyte over one second gives 8 Mbps through
both code paths. -/
theorem calculateMbps_formula_witness :
    MainClient.calculateMbps 1 1000 = (((1 : Nat) : ℚ) * 8) / (1000 / 1000) ∧
    LegacyClient.clientSpeedMbps 1 1000 = (((1 : Nat) : ℚ) * 8) / (1000 / 1000) :=
  calculateMbps_formula 1 1000 (by decide) (by decide) (by norm_num)

/-- Witness for C2: three chunks with a consumer pulling three times. -/
theorem download_stream_exact_witness :
    HonoServer.runDownloadStream 3 3 0 =
      (List.replicate 3 HonoServer.DATA_CHUNK_SIZE, true) ∧
    LegacyServer.runLegacyStream 3 (3 : Int) =
      (List.replicate 3 LegacyServer.dataChunkSize, true) ∧
    HonoServer.downloadContentLength 3 = 3 * HonoServer.DATA_CHUNK_SIZE ∧
    LegacyServer.contentLengthHeader 3 = ((3 * LegacyServer.dataChunkSize : Nat) : Int) :=
  ⟨(download_stream_exact 3 3 (by decide) (by decide)).1,
   (download_stream_exact 3 3 (by decide) (by decide)).2.2.2.1,
   (download_stream_exact 3 3 (by decide) (by decide)).2.2.1,
   (download_stream_exact 3 3 (by decide) (by decide)).2.2.2.2.2 (by decide)⟩
